import Mathlib

/-!
Shallow embedding of the developer knowledge-graph engine (src/index.js):
entity/relation data model, validation, status/priority subsystem, query
engine (search, project status, component context, decision history,
milestone progress) and the end-session workflow state update.

JavaScript strings are modelled as Lean `String`; the string operations the
code uses (`toLowerCase`, `includes`, `split` on a one-character separator,
`startsWith`, `trim`) are implemented structurally over `List Char` so that
all definitions evaluate inside the kernel.  `Math.round` on the quotient of
two small integers is modelled as exact rational rounding (round half away
from zero, which for nonnegative arguments is round half up).  Fallible
operations return `Except GraphError _`; a thrown JS exception corresponds
to `.error`, and since every mutating method only persists the graph after
all checks pass, the persisted graph after a failed call is the input graph
(`applyCreateRelations` makes that explicit).
-/

namespace Developer

/-- ASCII lower-casing of one character, as JS `toLowerCase` acts on ASCII. -/
def lowerChar (c : Char) : Char :=
  if 65 ≤ c.toNat ∧ c.toNat ≤ 90 then Char.ofNat (c.toNat + 32) else c

/-- Models `s.toLowerCase()` (ASCII range; the vocabulary of the program is ASCII). -/
def jsToLower (s : String) : String :=
  String.mk (s.data.map lowerChar)

/-- Prefix test on character lists. -/
def prefixChars : List Char → List Char → Bool
  | [], _ => true
  | _ :: _, [] => false
  | a :: as, b :: bs => a == b && prefixChars as bs

/-- Infix (substring) test on character lists. -/
def infixChars (needle : List Char) : List Char → Bool
  | [] => needle.isEmpty
  | c :: rest => prefixChars needle (c :: rest) || infixChars needle rest

/-- Models `s.includes(sub)`. -/
def jsIncludes (s sub : String) : Bool :=
  infixChars sub.data s.data

/-- Models `s.startsWith(pre)`. -/
def jsStartsWith (s pre : String) : Bool :=
  prefixChars pre.data s.data

/-- Split a character list at every occurrence of the separator. -/
def splitOnChar (sep : Char) : List Char → List (List Char)
  | [] => [[]]
  | c :: rest =>
    match splitOnChar sep rest with
    | [] => if c == sep then [[], []] else [[c]]
    | h :: t => if c == sep then [] :: h :: t else (c :: h) :: t

/-- Models `s.split(sep)` for a one-character separator (the only form the code uses). -/
def jsSplit (s : String) (sep : Char) : List String :=
  (splitOnChar sep s.data).map String.mk

/-- Whitespace recognised by the model of `trim` (space, tab, newline, carriage return). -/
def isSpaceChar (c : Char) : Bool :=
  c == ' ' || c == '\t' || c == '\n' || c == '\r'

/-- Models `s.trim()`. -/
def jsTrim (s : String) : String :=
  String.mk ((((s.data.dropWhile isSpaceChar).reverse).dropWhile isSpaceChar).reverse)

/-- Decimal-digit parse of a string of digits, `none` on a malformed string. -/
def parseNat? (s : String) : Option Nat :=
  if s.data ≠ [] ∧ s.data.all (fun c => 48 ≤ c.toNat && c.toNat ≤ 57) then
    some (s.data.foldl (fun acc c => acc * 10 + (c.toNat - 48)) 0)
  else none

/-- Entity of the knowledge graph: unique name, type tag, observation list. -/
structure Entity where
  name : String
  entityType : String
  observations : List String
deriving DecidableEq, Repr

/-- Directed typed edge between two entity names. -/
structure Relation where
  «from» : String
  «to» : String
  «relationType» : String
deriving DecidableEq, Repr

/-- The persisted graph document. -/
structure Graph where
  entities : List Entity
  relations : List Relation
deriving DecidableEq, Repr

/-- Structured form of the error messages thrown by the graph engine. -/
inductive GraphError where
  | invalidEntityType (tag : String)
  | invalidRelationType (tag : String)
  | invalidStatusValue (value : String)
  | invalidPriorityValue (value : String)
  | sourceMissing (name : String)
  | targetMissing (name : String)
  | entityNotFound (name : String)
  | projectNotFound (name : String)
  | componentNotFound (name : String)
  | milestoneNotFound (name : String)
deriving DecidableEq, Repr

/-- Legal entity type tags (VALID_ENTITY_TYPES). -/
def VALID_ENTITY_TYPES : List String :=
  ["project", "component", "feature", "issue", "task", "technology",
   "decision", "milestone", "environment", "documentation", "requirement",
   "status", "priority"]

/-- Legal relation type tags (VALID_RELATION_TYPES). -/
def VALID_RELATION_TYPES : List String :=
  ["depends_on", "implements", "blocked_by", "uses", "part_of", "contains",
   "related_to", "affects", "resolves", "documented_in", "decided_in",
   "required_by", "has_status", "has_priority", "depends_on_milestone",
   "precedes", "tested_in"]

/-- Legal status values (VALID_STATUS_VALUES). -/
def VALID_STATUS_VALUES : List String := ["inactive", "active", "complete"]

/-- Legal priority values (VALID_PRIORITY_VALUES). -/
def VALID_PRIORITY_VALUES : List String := ["low", "high"]

/-- Membership test against the entity-type vocabulary (validateEntityType). -/
def validateEntityType (entityType : String) : Bool :=
  VALID_ENTITY_TYPES.contains entityType

/-- Membership test against the relation-type vocabulary (validateRelationType). -/
def validateRelationType (relationType : String) : Bool :=
  VALID_RELATION_TYPES.contains relationType

/-- Whether some entity of the graph bears the given name. -/
def entityExists (g : Graph) (name : String) : Bool :=
  g.entities.any (fun e => e.name == name)

/-- getEntityStatus: value of the first `has_status` relation out of the entity,
read from the target name after the colon; `none` models both the JS `null`
(no relation) and `undefined` (target name without a colon). -/
def getEntityStatus (g : Graph) (entityName : String) : Option String :=
  match g.relations.find? (fun r => r.from == entityName && r.relationType == "has_status") with
  | some r => (jsSplit r.to ':')[1]?
  | none => none

/-- getEntityPriority, symmetric to getEntityStatus over `has_priority`. -/
def getEntityPriority (g : Graph) (entityName : String) : Option String :=
  match g.relations.find? (fun r => r.from == entityName && r.relationType == "has_priority") with
  | some r => (jsSplit r.to ':')[1]?
  | none => none

/-- setEntityStatus: reject an illegal value, else drop every `has_status`
relation out of the entity and append the one new relation. -/
def setEntityStatus (g : Graph) (entityName statusValue : String) : Except GraphError Graph :=
  if VALID_STATUS_VALUES.contains statusValue then
    .ok { g with relations :=
      (g.relations.filter (fun r => !(r.from == entityName && r.relationType == "has_status")))
        ++ [⟨entityName, "status:" ++ statusValue, "has_status"⟩] }
  else .error (.invalidStatusValue statusValue)

/-- setEntityPriority, symmetric to setEntityStatus over `has_priority`. -/
def setEntityPriority (g : Graph) (entityName priorityValue : String) : Except GraphError Graph :=
  if VALID_PRIORITY_VALUES.contains priorityValue then
    .ok { g with relations :=
      (g.relations.filter (fun r => !(r.from == entityName && r.relationType == "has_priority")))
        ++ [⟨entityName, "priority:" ++ priorityValue, "has_priority"⟩] }
  else .error (.invalidPriorityValue priorityValue)

/-- createEntities: reject the first entity with an unknown type, else append
those entities whose name is not already taken and return them. -/
def createEntities (g : Graph) (entities : List Entity) : Except GraphError (Graph × List Entity) :=
  match entities.find? (fun e => !validateEntityType e.entityType) with
  | some e => .error (.invalidEntityType e.entityType)
  | none =>
    let newEntities := entities.filter
      (fun e => !g.entities.any (fun ex => ex.name == e.name))
    .ok ({ g with entities := g.entities ++ newEntities }, newEntities)

/-- Endpoint check of createRelations: first missing endpoint in batch order,
source endpoint checked before target endpoint. -/
def checkEndpoints (g : Graph) : List Relation → Option GraphError
  | [] => none
  | r :: rest =>
    if !entityExists g r.from then some (.sourceMissing r.from)
    else if !entityExists g r.to then some (.targetMissing r.to)
    else checkEndpoints g rest

/-- createRelations: reject the first unknown relation type, then the first
missing endpoint, and only then append the relations whose triple is not
already present, returning the appended ones. -/
def createRelations (g : Graph) (relations : List Relation) :
    Except GraphError (Graph × List Relation) :=
  match relations.find? (fun r => !validateRelationType r.relationType) with
  | some r => .error (.invalidRelationType r.relationType)
  | none =>
    match checkEndpoints g relations with
    | some err => .error err
    | none =>
      let newRelations := relations.filter (fun r =>
        !g.relations.any (fun ex =>
          ex.from == r.from && ex.to == r.to && ex.relationType == r.relationType))
      .ok ({ g with relations := g.relations ++ newRelations }, newRelations)

/-- The graph persisted after a createRelations call: the new graph on
success, the untouched input graph when the call throws before saving. -/
def applyCreateRelations (g : Graph) (relations : List Relation) : Graph :=
  match createRelations g relations with
  | .ok (g2, _) => g2
  | .error _ => g

/-- deleteEntities: drop every entity with a listed name and every relation
with a listed name at either endpoint. -/
def deleteEntities (g : Graph) (entityNames : List String) : Graph :=
  { entities := g.entities.filter (fun e => !entityNames.contains e.name),
    relations := g.relations.filter
      (fun r => !entityNames.contains r.from && !entityNames.contains r.to) }

/-- Case-insensitive substring match of the query against name, type tag or
any observation (the entity filter of searchNodes). -/
def matchesQuery (query : String) (e : Entity) : Bool :=
  jsIncludes (jsToLower e.name) (jsToLower query) ||
  jsIncludes (jsToLower e.entityType) (jsToLower query) ||
  e.observations.any (fun o => jsIncludes (jsToLower o) (jsToLower query))

/-- searchNodes: matching entities plus the relations with both endpoints
among the matching names. -/
def searchNodes (g : Graph) (query : String) : Graph :=
  let filteredEntities := g.entities.filter (matchesQuery query)
  let filteredNames := filteredEntities.map (fun e => e.name)
  { entities := filteredEntities,
    relations := g.relations.filter
      (fun r => filteredNames.contains r.from && filteredNames.contains r.to) }

/-- openNodes: exact-name selection plus the relations with both endpoints
among the selected names. -/
def openNodes (g : Graph) (names : List String) : Graph :=
  let filteredEntities := g.entities.filter (fun e => names.contains e.name)
  let filteredNames := filteredEntities.map (fun e => e.name)
  { entities := filteredEntities,
    relations := g.relations.filter
      (fun r => filteredNames.contains r.from && filteredNames.contains r.to) }

/-- The status value an entity resolves to in the query engine: the
`statuses` maps of getProjectStatus, getComponentContext and
getMilestoneProgress store `getEntityStatus` only when it is truthy, so an
empty-string or absent value resolves to `none`. -/
def resolvedStatus (g : Graph) (name : String) : Option String :=
  match getEntityStatus g name with
  | some s => if s == "" then none else some s
  | none => none

/-- The priority value an entity resolves to, symmetric to resolvedStatus. -/
def resolvedPriority (g : Graph) (name : String) : Option String :=
  match getEntityPriority g name with
  | some s => if s == "" then none else some s
  | none => none

/-- The active filter shared by getProjectStatus and getComponentContext:
`status ? status === "active" : true`. -/
def jsActive (g : Graph) (e : Entity) : Bool :=
  match resolvedStatus g e.name with
  | some s => s == "active"
  | none => true

/-- The entity found at the opposite endpoint of a relation touching the
named node, as resolved inside the discovery loops of getProjectStatus. -/
def relatedEntityOf (g : Graph) (name : String) (r : Relation) : Option Entity :=
  if r.from == name || r.to == name then
    g.entities.find? (fun e =>
      (r.from == name && e.name == r.to) || (r.to == name && e.name == r.from))
  else none

/-- Phase one of getProjectStatus discovery: the opposite endpoints of every
relation touching the project, in relation order, duplicates kept. -/
def directRelated (g : Graph) (projectName : String) : List Entity :=
  g.relations.filterMap (relatedEntityOf g projectName)

/-- The components directly related to the project. -/
def projectComponents (g : Graph) (projectName : String) : List Entity :=
  (directRelated g projectName).filter (fun e => e.entityType == "component")

/-- The milestones directly related to the project (no component phase). -/
def projectMilestones (g : Graph) (projectName : String) : List Entity :=
  (directRelated g projectName).filter (fun e => e.entityType == "milestone")

/-- Append an entity unless one of the same name is already present (the
dedup used by the component phase of getProjectStatus). -/
def addUniqueByName (xs : List Entity) (e : Entity) : List Entity :=
  if xs.any (fun x => x.name == e.name) then xs else xs ++ [e]

/-- Phase two of getProjectStatus discovery: walk every relation touching
each component and append the opposite endpoints of the requested type,
deduplicated by name against the accumulated list. -/
def componentPhase (g : Graph) (typ : String) (components : List Entity)
    (init : List Entity) : List Entity :=
  components.foldl (fun acc c =>
    (g.relations.filterMap (relatedEntityOf g c.name)).foldl (fun acc2 e =>
      if e.entityType == typ then addUniqueByName acc2 e else acc2) acc) init

/-- All features collected by getProjectStatus (direct plus component phase). -/
def projectFeatures (g : Graph) (projectName : String) : List Entity :=
  componentPhase g "feature" (projectComponents g projectName)
    ((directRelated g projectName).filter (fun e => e.entityType == "feature"))

/-- All issues collected by getProjectStatus. -/
def projectIssues (g : Graph) (projectName : String) : List Entity :=
  componentPhase g "issue" (projectComponents g projectName)
    ((directRelated g projectName).filter (fun e => e.entityType == "issue"))

/-- All tasks collected by getProjectStatus. -/
def projectTasks (g : Graph) (projectName : String) : List Entity :=
  componentPhase g "task" (projectComponents g projectName)
    ((directRelated g projectName).filter (fun e => e.entityType == "task"))

/-- The decision entities connected to the project by a relation in either
direction, in entity-list (discovery) order. -/
def projectDecisions (g : Graph) (projectName : String) : List Entity :=
  g.entities.filter (fun e => e.entityType == "decision" &&
    g.relations.any (fun r =>
      (r.from == e.name && r.to == projectName) ||
      (r.to == e.name && r.from == projectName)))

/-- Names of the tasks a task is preceded by (incoming `precedes` edges). -/
def precedingTasksOf (g : Graph) (taskName : String) : List String :=
  (g.relations.filter (fun r => r.to == taskName && r.relationType == "precedes")).map
    (fun r => r.from)

/-- Names of the tasks a task precedes (outgoing `precedes` edges). -/
def followingTasksOf (g : Graph) (taskName : String) : List String :=
  (g.relations.filter (fun r => r.from == taskName && r.relationType == "precedes")).map
    (fun r => r.to)

/-- The task-sequencing map: a task appears exactly when it has at least one
`precedes` edge in either direction. -/
def taskSequencingOf (g : Graph) (tasks : List Entity) :
    List (String × List String × List String) :=
  tasks.filterMap (fun t =>
    let p := precedingTasksOf g t.name
    let f := followingTasksOf g t.name
    if p.length > 0 || f.length > 0 then some (t.name, p, f) else none)

/-- Result record of getProjectStatus. -/
structure ProjectStatus where
  project : Entity
  components : List Entity
  activeFeatures : List Entity
  activeTasks : List Entity
  activeIssues : List Entity
  upcomingMilestones : List Entity
  allFeatures : List Entity
  allIssues : List Entity
  allTasks : List Entity
  allMilestones : List Entity
  recentDecisions : List Entity
  taskSequencing : List (String × List String × List String)
deriving DecidableEq, Repr

/-- getProjectStatus: fails when no project-typed entity bears the name,
otherwise collects the related entities, applies the active filters and caps
the decisions at the first five discovered. -/
def getProjectStatus (g : Graph) (projectName : String) : Except GraphError ProjectStatus :=
  match g.entities.find? (fun e => e.name == projectName && e.entityType == "project") with
  | none => .error (.projectNotFound projectName)
  | some project =>
    let features := projectFeatures g projectName
    let issues := projectIssues g projectName
    let tasks := projectTasks g projectName
    let milestones := projectMilestones g projectName
    .ok {
      project := project
      components := projectComponents g projectName
      activeFeatures := features.filter (jsActive g)
      activeTasks := tasks.filter (jsActive g)
      activeIssues := issues.filter (jsActive g)
      upcomingMilestones := milestones.filter (jsActive g)
      allFeatures := features
      allIssues := issues
      allTasks := tasks
      allMilestones := milestones
      recentDecisions := (projectDecisions g projectName).take 5
      taskSequencing := taskSequencingOf g tasks }

/-- Projects containing the component (incoming `contains` edges). -/
def componentProjects (g : Graph) (componentName : String) : List Entity :=
  g.relations.filterMap (fun r =>
    if r.relationType == "contains" && r.to == componentName then
      g.entities.find? (fun e => e.name == r.from && e.entityType == "project")
    else none)

/-- Features the component implements (outgoing `implements` edges). -/
def componentFeatures (g : Graph) (componentName : String) : List Entity :=
  g.relations.filterMap (fun r =>
    if r.relationType == "implements" && r.from == componentName then
      g.entities.find? (fun e => e.name == r.to && e.entityType == "feature")
    else none)

/-- Technologies the component uses (outgoing `uses` edges). -/
def componentTechnologies (g : Graph) (componentName : String) : List Entity :=
  g.relations.filterMap (fun r =>
    if r.relationType == "uses" && r.from == componentName then
      g.entities.find? (fun e => e.name == r.to && e.entityType == "technology")
    else none)

/-- Issues affecting the component (incoming `affects` edges). -/
def componentIssues (g : Graph) (componentName : String) : List Entity :=
  g.relations.filterMap (fun r =>
    if r.relationType == "affects" && r.to == componentName then
      g.entities.find? (fun e => e.name == r.from && e.entityType == "issue")
    else none)

/-- Tasks connected to the component by any relation whose other endpoint is
a task-typed entity other than the component itself. -/
def componentTasks (g : Graph) (componentName : String) : List Entity :=
  g.relations.filterMap (fun r =>
    if r.from == componentName || r.to == componentName then
      g.entities.find? (fun e =>
        (e.name == r.from || e.name == r.to) && !(e.name == componentName) &&
        e.entityType == "task")
    else none)

/-- Documentation of the component (outgoing `documented_in` edges). -/
def componentDocumentation (g : Graph) (componentName : String) : List Entity :=
  g.relations.filterMap (fun r =>
    if r.relationType == "documented_in" && r.from == componentName then
      g.entities.find? (fun e => e.name == r.to && e.entityType == "documentation")
    else none)

/-- Dependencies of the component (outgoing `depends_on` edges, any type). -/
def componentDependencies (g : Graph) (componentName : String) : List Entity :=
  g.relations.filterMap (fun r =>
    if r.relationType == "depends_on" && r.from == componentName then
      g.entities.find? (fun e => e.name == r.to)
    else none)

/-- Result record of getComponentContext. -/
structure ComponentContext where
  component : Entity
  projects : List Entity
  features : List Entity
  technologies : List Entity
  activeIssues : List Entity
  activeTasks : List Entity
  documentation : List Entity
  dependencies : List Entity
  allIssues : List Entity
  allTasks : List Entity
deriving DecidableEq, Repr

/-- getComponentContext: fails when no component-typed entity bears the
name, otherwise resolves the related collections and applies the same
active filter to issues and tasks as getProjectStatus. -/
def getComponentContext (g : Graph) (componentName : String) :
    Except GraphError ComponentContext :=
  match g.entities.find? (fun e => e.name == componentName && e.entityType == "component") with
  | none => .error (.componentNotFound componentName)
  | some component =>
    let issues := componentIssues g componentName
    let tasks := componentTasks g componentName
    .ok {
      component := component
      projects := componentProjects g componentName
      features := componentFeatures g componentName
      technologies := componentTechnologies g componentName
      activeIssues := issues.filter (jsActive g)
      activeTasks := tasks.filter (jsActive g)
      documentation := componentDocumentation g componentName
      dependencies := componentDependencies g componentName
      allIssues := issues
      allTasks := tasks }

/-- Decisions with a `related_to` edge into the project, in relation order. -/
def decisionsDirect (g : Graph) (projectName : String) : List Entity :=
  g.relations.filterMap (fun r =>
    if r.relationType == "related_to" && r.to == projectName then
      g.entities.find? (fun e => e.name == r.from && e.entityType == "decision")
    else none)

/-- Components the project `contains`, in relation order. -/
def projectContainedComponents (g : Graph) (projectName : String) : List Entity :=
  g.relations.filterMap (fun r =>
    if r.relationType == "contains" && r.from == projectName then
      g.entities.find? (fun e => e.name == r.to && e.entityType == "component")
    else none)

/-- All decisions collected by getDecisionHistory: the direct ones, then for
each contained component the decisions related to it, deduplicated by name
against the accumulated list. -/
def collectDecisions (g : Graph) (projectName : String) : List Entity :=
  (projectContainedComponents g projectName).foldl (fun acc c =>
    g.relations.foldl (fun acc2 r =>
      if r.relationType == "related_to" && r.to == c.name then
        match g.entities.find? (fun e => e.name == r.from && e.entityType == "decision") with
        | some d => if acc2.any (fun x => x.name == d.name) then acc2 else acc2 ++ [d]
        | none => acc2
      else acc2) acc)
    (decisionsDirect g projectName)

/-- Days from 1970-01-01 of a proleptic-Gregorian civil date with year at
least one (the civil-from-days era decomposition). -/
def daysFromCivil (y m d : Nat) : Int :=
  let yAdj := if m ≤ 2 then y - 1 else y
  let era := yAdj / 400
  let yoe := yAdj % 400
  let mp := if m > 2 then m - 3 else m + 9
  let doy := (153 * mp + 2) / 5 + d - 1
  let doe := yoe * 365 + yoe / 4 - yoe / 100 + doy
  ((era * 146097 + doe : Nat) : Int) - 719468

/-- Models `new Date(s).getTime()` for a date-only string `YYYY-MM-DD`, the
format the date observations of this program carry; a string outside that
format is not modelled and maps to zero. -/
def jsDateMs (s : String) : Int :=
  match (jsSplit s '-').map parseNat? with
  | [some y, some m, some d] => daysFromCivil y m d * 86400000
  | _ => 0

/-- The first observation starting with `Date:`, if any. -/
def dateObsOf (e : Entity) : Option String :=
  e.observations.find? (fun o => jsStartsWith o "Date:")

/-- The sort key getDecisionHistory assigns to a decision: the parsed date of
the text after the first colon of its `Date:` observation, or the epoch
(`new Date(0)`, time zero) when it has none. -/
def assignedDate (e : Entity) : Int :=
  match dateObsOf e with
  | some o => jsDateMs (jsTrim (((jsSplit o ':')[1]?).getD ""))
  | none => 0

/-- Stable insertion into a list sorted by descending key, placing the new
element after every element of greater-or-equal key, as the comparator
`b.date - a.date` of a stable `Array.prototype.sort` does. -/
def insertDesc (x : Entity × Int) : List (Entity × Int) → List (Entity × Int)
  | [] => [x]
  | y :: ys => if x.2 ≤ y.2 then y :: insertDesc x ys else x :: y :: ys

/-- Stable sort by descending key (models the `sort` call of
getDecisionHistory on the decision/date pairs). -/
def sortByDateDesc (l : List (Entity × Int)) : List (Entity × Int) :=
  l.foldl (fun acc x => insertDesc x acc) []

/-- getDecisionHistory: fails when no project-typed entity bears the name,
otherwise returns the collected decisions sorted by descending assigned
date. -/
def getDecisionHistory (g : Graph) (projectName : String) :
    Except GraphError (Entity × List Entity) :=
  match g.entities.find? (fun e => e.name == projectName && e.entityType == "project") with
  | none => .error (.projectNotFound projectName)
  | some project =>
    let withDates := (collectDecisions g projectName).map (fun d => (d, assignedDate d))
    .ok (project, (sortByDateDesc withDates).map (fun p => p.1))

/-- Tasks with a `related_to` edge into the milestone, in relation order. -/
def milestoneTasks (g : Graph) (milestoneName : String) : List Entity :=
  g.relations.filterMap (fun r =>
    if r.relationType == "related_to" && r.to == milestoneName then
      g.entities.find? (fun e => e.name == r.from && e.entityType == "task")
    else none)

/-- The status a milestone task is bucketed under:
`statuses[task.name] || "inactive"`. -/
def bucketStatus (g : Graph) (taskName : String) : String :=
  (resolvedStatus g taskName).getD "inactive"

/-- Models `Math.round((c / t) * 100)` for naturals with `t` positive, as
exact rational rounding half away from zero. -/
def jsRoundPct (c t : Nat) : Nat :=
  (200 * c + t) / (2 * t)

/-- Result record of getMilestoneProgress. -/
structure MilestoneProgress where
  milestone : Entity
  totalTasks : Nat
  completedCount : Nat
  inProgressCount : Nat
  notStartedCount : Nat
  percentage : Nat
  complete : Bool
  completed : List Entity
  inProgress : List Entity
  notStarted : List Entity
  taskSequencing : List (String × List String × List String)
deriving DecidableEq, Repr

/-- getMilestoneProgress: fails when no milestone-typed entity bears the
name, otherwise buckets its related tasks by status, computes the rounded
completion percentage (zero when there are no tasks) and reports the
milestone complete exactly when it has tasks and all of them resolve to
`complete`. -/
def getMilestoneProgress (g : Graph) (milestoneName : String) :
    Except GraphError MilestoneProgress :=
  match g.entities.find? (fun e => e.name == milestoneName && e.entityType == "milestone") with
  | none => .error (.milestoneNotFound milestoneName)
  | some milestone =>
    let tasks := milestoneTasks g milestoneName
    let completedTasks := tasks.filter (fun t => bucketStatus g t.name == "complete")
    let inProgressTasks := tasks.filter (fun t =>
      !(bucketStatus g t.name == "complete") && bucketStatus g t.name == "active")
    let notStartedTasks := tasks.filter (fun t =>
      !(bucketStatus g t.name == "complete") && !(bucketStatus g t.name == "active"))
    .ok {
      milestone := milestone
      totalTasks := tasks.length
      completedCount := completedTasks.length
      inProgressCount := inProgressTasks.length
      notStartedCount := notStartedTasks.length
      percentage := if tasks.length > 0 then jsRoundPct completedTasks.length tasks.length else 0
      complete := tasks.length > 0 && tasks.all (fun t => resolvedStatus g t.name == some "complete")
      completed := completedTasks
      inProgress := inProgressTasks
      notStarted := notStartedTasks
      taskSequencing := taskSequencingOf g tasks }

/-- Task update payload of the `taskUpdates` stage. -/
structure TaskUpdate where
  name : String
  status : String
deriving DecidableEq, Repr

/-- New task payload of the `newTasks` stage. -/
structure NewTask where
  name : String
  description : String
  priority : Option String
  precedes : Option String
  follows : Option String
deriving DecidableEq, Repr

/-- Free-form stage payload: each property a stage may carry is optional,
`none` modelling an absent JS property. -/
structure StageData where
  summary : Option String := none
  duration : Option String := none
  focus : Option String := none
  achievements : Option (List String) := none
  taskUpdates : Option (List TaskUpdate) := none
  projectName : Option String := none
  projectStatus : Option String := none
  projectObservation : Option String := none
  newTasks : Option (List NewTask) := none
deriving DecidableEq, Repr

/-- Arguments the assembly stage synthesises for the final commit.  The
`JSON.stringify` wrapping of the list-valued fields is modelled as the
identity since the commit path parses the strings straight back. -/
structure AssembledArgs where
  summary : String
  duration : String
  focus : String
  achievements : List String
  taskUpdates : List TaskUpdate
  projectName : String
  projectStatus : String
  projectObservation : String
  newTasks : List NewTask
deriving DecidableEq, Repr

/-- Payload stored in a stage record: ordinary stage data, or the assembled
arguments a processed assembly stage carries. -/
inductive StagePayload where
  | data (d : StageData)
  | assembled (a : AssembledArgs)
deriving DecidableEq, Repr

/-- One analysis-stage record as processStage returns it. -/
structure StageRecord where
  stage : String
  stageNumber : Nat
  analysis : String
  stageData : StagePayload
  completed : Bool
deriving DecidableEq, Repr

/-- One item of the per-session log: an analysis-stage record or the
terminal completion marker. -/
inductive SessionItem where
  | analysisStage (r : StageRecord)
  | sessionCompleted (timestamp summary project : String)
deriving DecidableEq, Repr

/-- Whether a session item is an analysis-stage record. -/
def isAnalysisStage : SessionItem → Bool
  | .analysisStage _ => true
  | .sessionCompleted _ _ _ => false

/-- The `stage` property of a session item: completion markers carry none
(JS `undefined`). -/
def stageOf : SessionItem → Option String
  | .analysisStage r => some r.stage
  | .sessionCompleted _ _ _ => none

/-- The `stageData` property of a session item. -/
def stageDataOf : SessionItem → Option StagePayload
  | .analysisStage r => some r.stageData
  | .sessionCompleted _ _ _ => none

/-- The `summary` property of a stage payload. -/
def StagePayload.summaryField : StagePayload → Option String
  | .data d => d.summary
  | .assembled a => some a.summary

/-- The `duration` property of a stage payload. -/
def StagePayload.durationField : StagePayload → Option String
  | .data d => d.duration
  | .assembled a => some a.duration

/-- The `focus` property of a stage payload. -/
def StagePayload.focusField : StagePayload → Option String
  | .data d => d.focus
  | .assembled a => some a.focus

/-- The `achievements` property of a stage payload. -/
def StagePayload.achievementsField : StagePayload → Option (List String)
  | .data d => d.achievements
  | .assembled a => some a.achievements

/-- The `taskUpdates` property of a stage payload. -/
def StagePayload.taskUpdatesField : StagePayload → Option (List TaskUpdate)
  | .data d => d.taskUpdates
  | .assembled a => some a.taskUpdates

/-- The `projectName` property of a stage payload. -/
def StagePayload.projectNameField : StagePayload → Option String
  | .data d => d.projectName
  | .assembled a => some a.projectName

/-- The `projectStatus` property of a stage payload. -/
def StagePayload.projectStatusField : StagePayload → Option String
  | .data d => d.projectStatus
  | .assembled a => some a.projectStatus

/-- The `projectObservation` property of a stage payload. -/
def StagePayload.projectObservationField : StagePayload → Option String
  | .data d => d.projectObservation
  | .assembled a => some a.projectObservation

/-- The `newTasks` property of a stage payload. -/
def StagePayload.newTasksField : StagePayload → Option (List NewTask)
  | .data d => d.newTasks
  | .assembled a => some a.newTasks

/-- JS `x || dflt` on an optional string: an absent or empty string falls
back to the default. -/
def jsOrStr (o : Option String) (dflt : String) : String :=
  match o with
  | some s => if s == "" then dflt else s
  | none => dflt

/-- assembleEndSessionArgs: for each of the five named stages, `find` the
first session item whose `stage` property matches, and read its payload
fields with `||`-defaults (`JSON.stringify` of the list fields modelled as
identity). -/
def assembleEndSessionArgs (stages : List SessionItem) : AssembledArgs :=
  let summaryStage := stages.find? (fun s => stageOf s == some "summary")
  let achievementsStage := stages.find? (fun s => stageOf s == some "achievements")
  let taskUpdatesStage := stages.find? (fun s => stageOf s == some "taskUpdates")
  let newTasksStage := stages.find? (fun s => stageOf s == some "newTasks")
  let projectStatusStage := stages.find? (fun s => stageOf s == some "projectStatus")
  { summary := jsOrStr (summaryStage.bind (fun s => (stageDataOf s).bind StagePayload.summaryField)) ""
    duration := jsOrStr (summaryStage.bind (fun s => (stageDataOf s).bind StagePayload.durationField)) "unknown"
    focus := jsOrStr (summaryStage.bind (fun s => (stageDataOf s).bind StagePayload.focusField)) ""
    achievements := ((achievementsStage.bind (fun s => (stageDataOf s).bind StagePayload.achievementsField)).getD [])
    taskUpdates := ((taskUpdatesStage.bind (fun s => (stageDataOf s).bind StagePayload.taskUpdatesField)).getD [])
    projectName := jsOrStr (projectStatusStage.bind (fun s => (stageDataOf s).bind StagePayload.projectNameField)) ""
    projectStatus := jsOrStr (projectStatusStage.bind (fun s => (stageDataOf s).bind StagePayload.projectStatusField)) ""
    projectObservation := jsOrStr (projectStatusStage.bind (fun s => (stageDataOf s).bind StagePayload.projectObservationField)) ""
    newTasks := ((newTasksStage.bind (fun s => (stageDataOf s).bind StagePayload.newTasksField)).getD []) }

/-- Default payload of the `summary` stage. -/
def defaultSummaryData : StageData :=
  { summary := some "", duration := some "", focus := some "" }

/-- Default payload of the `achievements` stage. -/
def defaultAchievementsData : StageData := { achievements := some [] }

/-- Default payload of the `taskUpdates` stage. -/
def defaultTaskUpdatesData : StageData := { taskUpdates := some [] }

/-- Default payload of the `newTasks` stage. -/
def defaultNewTasksData : StageData := { newTasks := some [] }

/-- Default payload of the `projectStatus` stage. -/
def defaultProjectStatusData : StageData :=
  { projectName := some "", projectStatus := some "", projectObservation := some "" }

/-- Error raised by processStage on an unrecognised stage name. -/
inductive WorkflowError where
  | unknownStage (stage : String)
deriving DecidableEq, Repr

/-- processStage: build the stage record for the given stage name, with the
per-stage default payload when none is supplied; the assembly stage instead
recomputes its payload from the accumulated previous stages. -/
def processStage (stage : String) (stageNumber : Nat) (analysis : Option String)
    (stageData : Option StageData) (nextStageNeeded : Bool)
    (previousStages : List SessionItem) : Except WorkflowError StageRecord :=
  if stage == "summary" then
    .ok { stage := "summary", stageNumber := stageNumber, analysis := analysis.getD "",
          stageData := .data (stageData.getD defaultSummaryData),
          completed := !nextStageNeeded }
  else if stage == "achievements" then
    .ok { stage := "achievements", stageNumber := stageNumber, analysis := analysis.getD "",
          stageData := .data (stageData.getD defaultAchievementsData),
          completed := !nextStageNeeded }
  else if stage == "taskUpdates" then
    .ok { stage := "taskUpdates", stageNumber := stageNumber, analysis := analysis.getD "",
          stageData := .data (stageData.getD defaultTaskUpdatesData),
          completed := !nextStageNeeded }
  else if stage == "newTasks" then
    .ok { stage := "newTasks", stageNumber := stageNumber, analysis := analysis.getD "",
          stageData := .data (stageData.getD defaultNewTasksData),
          completed := !nextStageNeeded }
  else if stage == "projectStatus" then
    .ok { stage := "projectStatus", stageNumber := stageNumber, analysis := analysis.getD "",
          stageData := .data (stageData.getD defaultProjectStatusData),
          completed := !nextStageNeeded }
  else if stage == "assembly" then
    .ok { stage := "assembly", stageNumber := stageNumber,
          analysis := "Final assembly of endsession arguments",
          stageData := .assembled (assembleEndSessionArgs previousStages),
          completed := true }
  else .error (.unknownStage stage)

/-- The session-state update of the endsession handler: on a revision with a
truthy stage index, replace the indexed analysis-stage record when the index
is in range and append otherwise, re-joining the non-analysis items in
front; on an ordinary call, append the new record. -/
def updateSessionState (sessionState : List SessionItem) (isRevision : Bool)
    (revisesStage : Option Nat) (stageResult : StageRecord) : List SessionItem :=
  match isRevision, revisesStage with
  | true, some idx =>
    if idx == 0 then
      sessionState ++ [.analysisStage stageResult]
    else
      let analysisStages := sessionState.filter isAnalysisStage
      let analysisStages2 :=
        if idx ≤ analysisStages.length then
          analysisStages.set (idx - 1) (.analysisStage stageResult)
        else analysisStages ++ [.analysisStage stageResult]
      sessionState.filter (fun i => !isAnalysisStage i) ++ analysisStages2
  | _, _ => sessionState ++ [.analysisStage stageResult]

/-! Concrete inputs used by the witnesses and counterexamples below. -/

/-- A small graph with one project and one task joined by a relation. -/
def gBase : Graph :=
  { entities := [⟨"P1", "project", []⟩, ⟨"T1", "task", []⟩],
    relations := [⟨"P1", "T1", "contains"⟩] }

/-- A milestone with three related tasks: one complete, one active, one
without a status. -/
def gMilestone : Graph :=
  { entities := [⟨"M1", "milestone", []⟩, ⟨"Ta", "task", []⟩,
                 ⟨"Tb", "task", []⟩, ⟨"Tc", "task", []⟩],
    relations := [⟨"Ta", "M1", "related_to"⟩, ⟨"Tb", "M1", "related_to"⟩,
                  ⟨"Tc", "M1", "related_to"⟩,
                  ⟨"Ta", "status:complete", "has_status"⟩,
                  ⟨"Tb", "status:active", "has_status"⟩] }

/-- A project with a decision dated before 1970 and a decision carrying no
date observation. -/
def gDecDates : Graph :=
  { entities := [⟨"P", "project", []⟩,
                 ⟨"D1960", "decision", ["Date: 1960-01-01"]⟩,
                 ⟨"DN", "decision", ["no date recorded"]⟩],
    relations := [⟨"D1960", "P", "related_to"⟩, ⟨"DN", "P", "related_to"⟩] }

/-- A project related to six decisions, discovered in entity order. -/
def gSixDecisions : Graph :=
  { entities := [⟨"P", "project", []⟩,
                 ⟨"d1", "decision", []⟩, ⟨"d2", "decision", []⟩,
                 ⟨"d3", "decision", []⟩, ⟨"d4", "decision", []⟩,
                 ⟨"d5", "decision", []⟩, ⟨"d6", "decision", []⟩],
    relations := [⟨"d1", "P", "related_to"⟩, ⟨"d2", "P", "related_to"⟩,
                  ⟨"d3", "P", "related_to"⟩, ⟨"d4", "P", "related_to"⟩,
                  ⟨"d5", "P", "related_to"⟩, ⟨"d6", "P", "related_to"⟩] }

/-- A summary-stage record carrying the given summary text. -/
def summaryRecord (s : String) : StageRecord :=
  { stage := "summary", stageNumber := 1, analysis := "",
    stageData := .data { summary := some s, duration := some "", focus := some "" },
    completed := false }

/-- Two summary records accumulated in order: `first` then `second`. -/
def twoSummaries : List SessionItem :=
  [.analysisStage (summaryRecord "first"), .analysisStage (summaryRecord "second")]

/-- Follows the claim text of the assembly rule, not the code: selects the
most recent (latest-recorded) record of each stage name by searching the
accumulated records from the end. -/
def specAssembleMostRecent (stages : List SessionItem) : AssembledArgs :=
  assembleEndSessionArgs stages.reverse

/-- A component with one related task and one affecting issue. -/
def gComp : Graph :=
  { entities := [⟨"C", "component", []⟩, ⟨"T2", "task", []⟩, ⟨"I2", "issue", []⟩],
    relations := [⟨"C", "T2", "related_to"⟩, ⟨"I2", "C", "affects"⟩] }

/-- Placeholder project-status record for extracting a computed result. -/
def emptyProjectStatus : ProjectStatus :=
  { project := ⟨"", "", []⟩, components := [], activeFeatures := [], activeTasks := [],
    activeIssues := [], upcomingMilestones := [], allFeatures := [], allIssues := [],
    allTasks := [], allMilestones := [], recentDecisions := [], taskSequencing := [] }

/-- Placeholder component-context record for extracting a computed result. -/
def emptyComponentContext : ComponentContext :=
  { component := ⟨"", "", []⟩, projects := [], features := [], technologies := [],
    activeIssues := [], activeTasks := [], documentation := [], dependencies := [],
    allIssues := [], allTasks := [] }

/-- Placeholder milestone-progress record for extracting a computed result. -/
def emptyMilestoneProgress : MilestoneProgress :=
  { milestone := ⟨"", "", []⟩, totalTasks := 0, completedCount := 0, inProgressCount := 0,
    notStartedCount := 0, percentage := 0, complete := false, completed := [],
    inProgress := [], notStarted := [], taskSequencing := [] }

/-- The payload of a successful computation, or the fallback on an error. -/
def resultOf {ε α : Type} (x : Except ε α) (dflt : α) : α :=
  match x with
  | .ok a => a
  | .error _ => dflt

/-! Helper lemmas shared by the claim theorems. -/

/-- Filtering by a predicate after keeping only its complement yields nothing. -/
theorem filter_not_filter_self {α : Type} (p : α → Bool) (l : List α) :
    (l.filter (fun a => !p a)).filter p = [] := by
  induction l with
  | nil => rfl
  | cons a t ih => by_cases h : p a <;> simp [h, ih]

/-- Filtering twice by the same predicate changes nothing the second time. -/
theorem filter_filter_self {α : Type} (p : α → Bool) (l : List α) :
    (l.filter p).filter p = l.filter p := by
  induction l with
  | nil => rfl
  | cons a t ih => by_cases h : p a <;> simp [h, ih]

/-- `find?` returns the head of the first segment match when nothing before
it matches. -/
theorem find?_first_match {α : Type} (p : α → Bool) (pre : List α) (s : α) (post : List α)
    (hs : p s = true) (hpre : ∀ t ∈ pre, p t = false) :
    (pre ++ s :: post).find? p = some s := by
  induction pre with
  | nil => simp [List.find?, hs]
  | cons a t ih =>
    have ha : p a = false := hpre a (by simp)
    simp only [List.cons_append, List.find?, ha]
    exact ih (fun x hx => hpre x (by simp [hx]))

/-- `contains` agrees with membership under a lawful `BEq`. -/
theorem contains_iff_mem {α : Type} [BEq α] [LawfulBEq α] (l : List α) (a : α) :
    l.contains a = true ↔ a ∈ l := by
  simp [List.contains_iff_exists_mem_beq]

/-- Claim C1 example statement follows from setEntityStatus alone; this is
the shared inversion of a successful setEntityStatus call. -/
theorem setEntityStatus_ok (g : Graph) (n v : String)
    (hv : VALID_STATUS_VALUES.contains v = true) :
    setEntityStatus g n v = .ok { g with relations :=
      (g.relations.filter (fun r => !(r.from == n && r.relationType == "has_status")))
        ++ [⟨n, "status:" ++ v, "has_status"⟩] } := by
  have hv2 : v ∈ VALID_STATUS_VALUES := (contains_iff_mem _ _).mp hv
  simp [setEntityStatus, hv2]

/-- Shared inversion of a successful setEntityPriority call. -/
theorem setEntityPriority_ok (g : Graph) (n p : String)
    (hp : VALID_PRIORITY_VALUES.contains p = true) :
    setEntityPriority g n p = .ok { g with relations :=
      (g.relations.filter (fun r => !(r.from == n && r.relationType == "has_priority")))
        ++ [⟨n, "priority:" ++ p, "has_priority"⟩] } := by
  have hp2 : p ∈ VALID_PRIORITY_VALUES := (contains_iff_mem _ _).mp hp
  simp [setEntityPriority, hp2]

/-- C1: for every entity name and legal values, after setEntityStatus the
saved graph holds exactly one `has_status` relation out of that name,
pointing at `status:<value>`; repeating the call with the same value leaves
the graph unchanged, and a second call with another value again leaves
exactly one such relation, carrying the second value.  The same holds
symmetrically for setEntityPriority and `has_priority`. -/
theorem setEntityStatus_unique_and_idempotent (g : Graph) (n v v2 p p2 : String)
    (hv : VALID_STATUS_VALUES.contains v = true)
    (hv2 : VALID_STATUS_VALUES.contains v2 = true)
    (hp : VALID_PRIORITY_VALUES.contains p = true)
    (hp2 : VALID_PRIORITY_VALUES.contains p2 = true) :
    ∃ g1 g2 h1 h2,
      setEntityStatus g n v = .ok g1 ∧
      g1.relations.filter (fun r => r.from == n && r.relationType == "has_status")
        = [⟨n, "status:" ++ v, "has_status"⟩] ∧
      setEntityStatus g1 n v = .ok g1 ∧
      setEntityStatus g1 n v2 = .ok g2 ∧
      g2.relations.filter (fun r => r.from == n && r.relationType == "has_status")
        = [⟨n, "status:" ++ v2, "has_status"⟩] ∧
      setEntityPriority g n p = .ok h1 ∧
      h1.relations.filter (fun r => r.from == n && r.relationType == "has_priority")
        = [⟨n, "priority:" ++ p, "has_priority"⟩] ∧
      setEntityPriority h1 n p = .ok h1 ∧
      setEntityPriority h1 n p2 = .ok h2 ∧
      h2.relations.filter (fun r => r.from == n && r.relationType == "has_priority")
        = [⟨n, "priority:" ++ p2, "has_priority"⟩] := by
  refine ⟨_, _, _, _, setEntityStatus_ok g n v hv, ?_, ?_, setEntityStatus_ok _ n v2 hv2, ?_,
    setEntityPriority_ok g n p hp, ?_, ?_, setEntityPriority_ok _ n p2 hp2, ?_⟩
  · simp [List.filter_append, filter_not_filter_self]
  · rw [setEntityStatus_ok _ n v hv]
    congr 1
    simp [List.filter_append, filter_filter_self]
  · simp [List.filter_append, filter_not_filter_self, filter_filter_self]
  · simp [List.filter_append, filter_not_filter_self]
  · rw [setEntityPriority_ok _ n p hp]
    congr 1
    simp [List.filter_append, filter_filter_self]
  · simp [List.filter_append, filter_not_filter_self, filter_filter_self]

/-- C1 witness: the statement instantiated on a concrete graph, name and
values, every hypothesis discharged by computation. -/
theorem setEntityStatus_unique_and_idempotent_witness :
    ∃ g1 g2 h1 h2,
      setEntityStatus gBase "T1" "active" = .ok g1 ∧
      g1.relations.filter (fun r => r.from == "T1" && r.relationType == "has_status")
        = [⟨"T1", "status:" ++ "active", "has_status"⟩] ∧
      setEntityStatus g1 "T1" "active" = .ok g1 ∧
      setEntityStatus g1 "T1" "complete" = .ok g2 ∧
      g2.relations.filter (fun r => r.from == "T1" && r.relationType == "has_status")
        = [⟨"T1", "status:" ++ "complete", "has_status"⟩] ∧
      setEntityPriority gBase "T1" "high" = .ok h1 ∧
      h1.relations.filter (fun r => r.from == "T1" && r.relationType == "has_priority")
        = [⟨"T1", "priority:" ++ "high", "has_priority"⟩] ∧
      setEntityPriority h1 "T1" "high" = .ok h1 ∧
      setEntityPriority h1 "T1" "low" = .ok h2 ∧
      h2.relations.filter (fun r => r.from == "T1" && r.relationType == "has_priority")
        = [⟨"T1", "priority:" ++ "low", "has_priority"⟩] :=
  setEntityStatus_unique_and_idempotent gBase "T1" "active" "complete" "high" "low"
    (by decide) (by decide) (by decide) (by decide)

/-- C10: setEntityStatus and setEntityPriority never check that the named
entity exists: on a name absent from the entity set they succeed, add a
relation whose source endpoint references no entity, and leave the entity
set unchanged — while createRelations on the very same relation fails with
the source-missing error. -/
theorem setEntityStatus_allows_dangling (g : Graph) (n v p : String)
    (hn : entityExists g n = false)
    (hv : VALID_STATUS_VALUES.contains v = true)
    (hp : VALID_PRIORITY_VALUES.contains p = true) :
    (∃ g1, setEntityStatus g n v = .ok g1 ∧
      (⟨n, "status:" ++ v, "has_status"⟩ : Relation) ∈ g1.relations ∧
      g1.entities = g.entities ∧ entityExists g1 n = false) ∧
    createRelations g [⟨n, "status:" ++ v, "has_status"⟩]
      = .error (.sourceMissing n) ∧
    (∃ g2, setEntityPriority g n p = .ok g2 ∧
      (⟨n, "priority:" ++ p, "has_priority"⟩ : Relation) ∈ g2.relations ∧
      g2.entities = g.entities ∧ entityExists g2 n = false) ∧
    createRelations g [⟨n, "priority:" ++ p, "has_priority"⟩]
      = .error (.sourceMissing n) := by
  refine ⟨⟨_, setEntityStatus_ok g n v hv, by simp, rfl, hn⟩, ?_,
    ⟨_, setEntityPriority_ok g n p hp, by simp, rfl, hn⟩, ?_⟩
  · simp [createRelations, validateRelationType, VALID_RELATION_TYPES, checkEndpoints, hn]
  · simp [createRelations, validateRelationType, VALID_RELATION_TYPES, checkEndpoints, hn]

/-- C10 witness: the statement instantiated on a concrete graph and an
absent name. -/
theorem setEntityStatus_allows_dangling_witness :
    (∃ g1, setEntityStatus gBase "ghost" "active" = .ok g1 ∧
      (⟨"ghost", "status:" ++ "active", "has_status"⟩ : Relation) ∈ g1.relations ∧
      g1.entities = gBase.entities ∧ entityExists g1 "ghost" = false) ∧
    createRelations gBase [⟨"ghost", "status:" ++ "active", "has_status"⟩]
      = .error (.sourceMissing "ghost") ∧
    (∃ g2, setEntityPriority gBase "ghost" "high" = .ok g2 ∧
      (⟨"ghost", "priority:" ++ "high", "has_priority"⟩ : Relation) ∈ g2.relations ∧
      g2.entities = gBase.entities ∧ entityExists g2 "ghost" = false) ∧
    createRelations gBase [⟨"ghost", "priority:" ++ "high", "has_priority"⟩]
      = .error (.sourceMissing "ghost") :=
  setEntityStatus_allows_dangling gBase "ghost" "active" "high"
    (by decide) (by decide) (by decide)

/-- The endpoint check fails whenever some relation of the batch has a
missing endpoint, and the error it returns names a missing endpoint of some
relation of the batch. -/
theorem checkEndpoints_some_of_missing (g : Graph) (rels : List Relation)
    (h : ∃ r ∈ rels, entityExists g r.from = false ∨ entityExists g r.to = false) :
    ∃ err, checkEndpoints g rels = some err ∧
      ((∃ name, err = .sourceMissing name ∧ entityExists g name = false ∧
          ∃ r ∈ rels, r.from = name) ∨
       (∃ name, err = .targetMissing name ∧ entityExists g name = false ∧
          ∃ r ∈ rels, r.to = name)) := by
  induction rels with
  | nil => simp at h
  | cons r rest ih =>
    by_cases hf : entityExists g r.from = false
    · exact ⟨.sourceMissing r.from, by simp [checkEndpoints, hf],
        Or.inl ⟨r.from, rfl, hf, r, by simp, rfl⟩⟩
    · have hf2 : entityExists g r.from = true := by
        cases hfe : entityExists g r.from
        · exact absurd hfe hf
        · rfl
      by_cases ht : entityExists g r.to = false
      · exact ⟨.targetMissing r.to, by simp [checkEndpoints, hf2, ht],
          Or.inr ⟨r.to, rfl, ht, r, by simp, rfl⟩⟩
      · have ht2 : entityExists g r.to = true := by
          cases hte : entityExists g r.to
          · exact absurd hte ht
          · rfl
        have htail : ∃ x ∈ rest, entityExists g x.from = false ∨ entityExists g x.to = false := by
          obtain ⟨x, hx, hmiss⟩ := h
          rcases List.mem_cons.mp hx with hx1 | hx2
          · subst hx1
            rcases hmiss with hm | hm
            · exact absurd hm (by simp [hf2])
            · exact absurd hm (by simp [ht2])
          · exact ⟨x, hx2, hmiss⟩
        obtain ⟨err, heq, hcite⟩ := ih htail
        refine ⟨err, by simp [checkEndpoints, hf2, ht2, heq], ?_⟩
        rcases hcite with ⟨name, he, hm, x, hx, hn⟩ | ⟨name, he, hm, x, hx, hn⟩
        · exact Or.inl ⟨name, he, hm, x, by simp [hx], hn⟩
        · exact Or.inr ⟨name, he, hm, x, by simp [hx], hn⟩

/-- C2: re-creating relations whose triples are all already present is a
no-op (the graph, and so the relation set, is unchanged and nothing is
returned as new), while a batch containing a relation with an absent
endpoint fails with a not-found error naming a missing endpoint of the
batch, and the persisted graph is left completely unchanged. -/
theorem createRelations_noop_and_all_or_nothing (g : Graph) (rels : List Relation) :
    (∀ g2 new, createRelations g rels = .ok (g2, new) →
      (∀ r ∈ rels, r ∈ g.relations) → g2 = g ∧ new = []) ∧
    ((∀ r ∈ rels, validateRelationType r.relationType = true) →
      (∃ r ∈ rels, entityExists g r.from = false ∨ entityExists g r.to = false) →
      ∃ err, createRelations g rels = .error err ∧
        applyCreateRelations g rels = g ∧
        ((∃ name, err = .sourceMissing name ∧ entityExists g name = false ∧
            ∃ r ∈ rels, r.from = name) ∨
         (∃ name, err = .targetMissing name ∧ entityExists g name = false ∧
            ∃ r ∈ rels, r.to = name))) := by
  constructor
  · intro g2 new hok hall
    have hnil : rels.filter (fun r =>
        !g.relations.any (fun ex =>
          ex.from == r.from && ex.to == r.to && ex.relationType == r.relationType)) = [] := by
      rw [List.filter_eq_nil_iff]
      intro r hr
      have hany : g.relations.any (fun ex =>
          ex.from == r.from && ex.to == r.to && ex.relationType == r.relationType) = true :=
        List.any_eq_true.mpr ⟨r, hall r hr, by simp⟩
      simp [hany]
    unfold createRelations at hok
    cases hfind : rels.find? (fun r => !validateRelationType r.relationType) with
    | some r => rw [hfind] at hok; exact absurd hok (by simp)
    | none =>
      rw [hfind] at hok
      cases hcheck : checkEndpoints g rels with
      | some err => rw [hcheck] at hok; exact absurd hok (by simp)
      | none =>
        rw [hcheck] at hok
        simp only [hnil, List.append_nil, Except.ok.injEq, Prod.mk.injEq] at hok
        exact ⟨hok.1.symm, hok.2.symm⟩
  · intro htypes hmiss
    obtain ⟨err, hcheck, hcite⟩ := checkEndpoints_some_of_missing g rels hmiss
    have hfind : rels.find? (fun r => !validateRelationType r.relationType) = none := by
      apply List.find?_eq_none.mpr
      intro r hr
      simp [htypes r hr]
    refine ⟨err, ?_, ?_, hcite⟩
    · unfold createRelations
      rw [hfind, hcheck]
    · unfold applyCreateRelations createRelations
      rw [hfind, hcheck]

/-- C2 witness: on a concrete graph, re-creating the present relation is a
no-op and a batch with a missing target fails with the not-found error
naming it, leaving the graph unchanged. -/
theorem createRelations_noop_and_all_or_nothing_witness :
    (gBase = gBase ∧ ([] : List Relation) = []) ∧
    (∃ err, createRelations gBase [⟨"P1", "ghost", "contains"⟩] = .error err ∧
      applyCreateRelations gBase [⟨"P1", "ghost", "contains"⟩] = gBase ∧
      ((∃ name, err = .sourceMissing name ∧ entityExists gBase name = false ∧
          ∃ r ∈ [(⟨"P1", "ghost", "contains"⟩ : Relation)], r.from = name) ∨
       (∃ name, err = .targetMissing name ∧ entityExists gBase name = false ∧
          ∃ r ∈ [(⟨"P1", "ghost", "contains"⟩ : Relation)], r.to = name))) :=
  ⟨(createRelations_noop_and_all_or_nothing gBase [⟨"P1", "T1", "contains"⟩]).1
      gBase [] (by rfl) (by decide),
   (createRelations_noop_and_all_or_nothing gBase [⟨"P1", "ghost", "contains"⟩]).2
      (by decide) ⟨⟨"P1", "ghost", "contains"⟩, by simp, Or.inr (by decide)⟩⟩

/-- Every relation of a searchNodes result has both endpoint names among the
returned entities (holds over any graph by construction of the filter). -/
theorem searchNodes_relations_closed (g : Graph) (q : String) (r : Relation)
    (hr : r ∈ (searchNodes g q).relations) :
    (∃ e ∈ (searchNodes g q).entities, e.name = r.from) ∧
    (∃ e ∈ (searchNodes g q).entities, e.name = r.to) := by
  simp only [searchNodes, List.mem_filter, Bool.and_eq_true] at hr
  obtain ⟨-, hfrom, hto⟩ := hr
  have hfrom2 := (contains_iff_mem _ _).mp hfrom
  have hto2 := (contains_iff_mem _ _).mp hto
  obtain ⟨e1, he1, hn1⟩ := List.mem_map.mp hfrom2
  obtain ⟨e2, he2, hn2⟩ := List.mem_map.mp hto2
  exact ⟨⟨e1, he1, hn1⟩, ⟨e2, he2, hn2⟩⟩

/-- Every relation of an openNodes result has both endpoint names among the
returned entities. -/
theorem openNodes_relations_closed (g : Graph) (ns : List String) (r : Relation)
    (hr : r ∈ (openNodes g ns).relations) :
    (∃ e ∈ (openNodes g ns).entities, e.name = r.from) ∧
    (∃ e ∈ (openNodes g ns).entities, e.name = r.to) := by
  simp only [openNodes, List.mem_filter, Bool.and_eq_true] at hr
  obtain ⟨-, hfrom, hto⟩ := hr
  have hfrom2 := (contains_iff_mem _ _).mp hfrom
  have hto2 := (contains_iff_mem _ _).mp hto
  obtain ⟨e1, he1, hn1⟩ := List.mem_map.mp hfrom2
  obtain ⟨e2, he2, hn2⟩ := List.mem_map.mp hto2
  exact ⟨⟨e1, he1, hn1⟩, ⟨e2, he2, hn2⟩⟩

/-- C3: deleteEntities removes exactly the named entities and every relation
with a deleted name at either endpoint (all others survive), and on the
resulting graph no relation returned by searchNodes or openNodes has an
endpoint outside the returned entities. -/
theorem deleteEntities_cascade_and_closed_results (g : Graph) (names : List String) :
    (∀ e ∈ (deleteEntities g names).entities, names.contains e.name = false) ∧
    (∀ e ∈ g.entities, names.contains e.name = false → e ∈ (deleteEntities g names).entities) ∧
    (∀ r ∈ (deleteEntities g names).relations,
      names.contains r.from = false ∧ names.contains r.to = false) ∧
    (∀ r ∈ g.relations, names.contains r.from = false → names.contains r.to = false →
      r ∈ (deleteEntities g names).relations) ∧
    (∀ q r, r ∈ (searchNodes (deleteEntities g names) q).relations →
      (∃ e ∈ (searchNodes (deleteEntities g names) q).entities, e.name = r.from) ∧
      (∃ e ∈ (searchNodes (deleteEntities g names) q).entities, e.name = r.to)) ∧
    (∀ ns r, r ∈ (openNodes (deleteEntities g names) ns).relations →
      (∃ e ∈ (openNodes (deleteEntities g names) ns).entities, e.name = r.from) ∧
      (∃ e ∈ (openNodes (deleteEntities g names) ns).entities, e.name = r.to)) := by
  refine ⟨?_, ?_, ?_, ?_, ?_, ?_⟩
  · intro e he
    have := (List.mem_filter.mp he).2
    simpa using this
  · intro e he hname
    exact List.mem_filter.mpr ⟨he, by simp only [Bool.not_eq_true']; exact hname⟩
  · intro r hr
    have := (List.mem_filter.mp hr).2
    simp only [Bool.and_eq_true, Bool.not_eq_true'] at this
    exact this
  · intro r hr h1 h2
    exact List.mem_filter.mpr ⟨hr,
      by simp only [Bool.and_eq_true, Bool.not_eq_true']; exact ⟨h1, h2⟩⟩
  · intro q r hr
    exact searchNodes_relations_closed _ q r hr
  · intro ns r hr
    exact openNodes_relations_closed _ ns r hr

/-- C3 witness: on a concrete graph, the surviving entity is kept after
deletion, and a relation returned by searchNodes on a (trivially) deleted
graph has both endpoints among the returned entities. -/
theorem deleteEntities_cascade_and_closed_results_witness :
    ((⟨"P1", "project", []⟩ : Entity) ∈ (deleteEntities gBase ["T1"]).entities) ∧
    ((∃ e ∈ (searchNodes (deleteEntities gBase []) "1").entities, e.name = "P1") ∧
     (∃ e ∈ (searchNodes (deleteEntities gBase []) "1").entities, e.name = "T1")) :=
  ⟨(deleteEntities_cascade_and_closed_results gBase ["T1"]).2.1
      ⟨"P1", "project", []⟩ (by decide) (by decide),
   (deleteEntities_cascade_and_closed_results gBase []).2.2.2.2.1
      "1" ⟨"P1", "T1", "contains"⟩ (by decide)⟩

/-- Inversion of a successful getProjectStatus call: each collection of the
result record in terms of the discovery functions. -/
theorem getProjectStatus_ok_inv (g : Graph) (p : String) (r0 : ProjectStatus)
    (h : getProjectStatus g p = .ok r0) :
    r0.activeFeatures = (projectFeatures g p).filter (jsActive g) ∧
    r0.activeTasks = (projectTasks g p).filter (jsActive g) ∧
    r0.activeIssues = (projectIssues g p).filter (jsActive g) ∧
    r0.upcomingMilestones = (projectMilestones g p).filter (jsActive g) ∧
    r0.recentDecisions = (projectDecisions g p).take 5 := by
  cases hfind : g.entities.find? (fun e => e.name == p && e.entityType == "project") with
  | none => rw [getProjectStatus, hfind] at h; exact absurd h (by simp)
  | some project =>
    rw [getProjectStatus, hfind] at h
    simp only [Except.ok.injEq] at h
    subst h
    exact ⟨rfl, rfl, rfl, rfl, rfl⟩

/-- Inversion of a successful getComponentContext call. -/
theorem getComponentContext_ok_inv (g : Graph) (c : String) (c0 : ComponentContext)
    (h : getComponentContext g c = .ok c0) :
    c0.activeIssues = (componentIssues g c).filter (jsActive g) ∧
    c0.activeTasks = (componentTasks g c).filter (jsActive g) := by
  cases hfind : g.entities.find? (fun e => e.name == c && e.entityType == "component") with
  | none => rw [getComponentContext, hfind] at h; exact absurd h (by simp)
  | some component =>
    rw [getComponentContext, hfind] at h
    simp only [Except.ok.injEq] at h
    subst h
    exact ⟨rfl, rfl⟩

/-- The shared active filter keeps an entity exactly when its resolved
status is `active` or it has none. -/
theorem jsActive_iff (g : Graph) (e : Entity) :
    jsActive g e = true ↔
      (resolvedStatus g e.name = some "active" ∨ resolvedStatus g e.name = none) := by
  unfold jsActive
  cases h : resolvedStatus g e.name with
  | none => simp
  | some s => simp

/-- C4: the active collections of getProjectStatus and getComponentContext
include exactly the collected entities whose resolved status is `active` or
absent; any other status (`inactive`, `complete`) excludes the entity. -/
theorem activeFilters_active_or_unknown (g : Graph) (pname cname : String) :
    (∀ r0, getProjectStatus g pname = .ok r0 →
      (∀ t, t ∈ r0.activeTasks ↔ t ∈ projectTasks g pname ∧
        (resolvedStatus g t.name = some "active" ∨ resolvedStatus g t.name = none)) ∧
      (∀ t, t ∈ r0.activeIssues ↔ t ∈ projectIssues g pname ∧
        (resolvedStatus g t.name = some "active" ∨ resolvedStatus g t.name = none)) ∧
      (∀ t, t ∈ r0.activeFeatures ↔ t ∈ projectFeatures g pname ∧
        (resolvedStatus g t.name = some "active" ∨ resolvedStatus g t.name = none)) ∧
      (∀ t, t ∈ r0.upcomingMilestones ↔ t ∈ projectMilestones g pname ∧
        (resolvedStatus g t.name = some "active" ∨ resolvedStatus g t.name = none))) ∧
    (∀ c0, getComponentContext g cname = .ok c0 →
      (∀ t, t ∈ c0.activeIssues ↔ t ∈ componentIssues g cname ∧
        (resolvedStatus g t.name = some "active" ∨ resolvedStatus g t.name = none)) ∧
      (∀ t, t ∈ c0.activeTasks ↔ t ∈ componentTasks g cname ∧
        (resolvedStatus g t.name = some "active" ∨ resolvedStatus g t.name = none))) := by
  constructor
  · intro r0 h
    obtain ⟨hf, ht, hi, hm, -⟩ := getProjectStatus_ok_inv g pname r0 h
    refine ⟨?_, ?_, ?_, ?_⟩ <;> intro t
    · rw [ht, List.mem_filter, jsActive_iff]
    · rw [hi, List.mem_filter, jsActive_iff]
    · rw [hf, List.mem_filter, jsActive_iff]
    · rw [hm, List.mem_filter, jsActive_iff]
  · intro c0 h
    obtain ⟨hi, ht⟩ := getComponentContext_ok_inv g cname c0 h
    constructor <;> intro t
    · rw [hi, List.mem_filter, jsActive_iff]
    · rw [ht, List.mem_filter, jsActive_iff]

/-- C4 witness: the characterization instantiated on concrete graphs, a
task with no status resolving as active-by-default in both the project and
the component result. -/
theorem activeFilters_active_or_unknown_witness :
    ((⟨"T1", "task", []⟩ : Entity)
        ∈ (resultOf (getProjectStatus gBase "P1") emptyProjectStatus).activeTasks ↔
      (⟨"T1", "task", []⟩ : Entity) ∈ projectTasks gBase "P1" ∧
        (resolvedStatus gBase "T1" = some "active" ∨ resolvedStatus gBase "T1" = none)) ∧
    ((⟨"T2", "task", []⟩ : Entity)
        ∈ (resultOf (getComponentContext gComp "C") emptyComponentContext).activeTasks ↔
      (⟨"T2", "task", []⟩ : Entity) ∈ componentTasks gComp "C" ∧
        (resolvedStatus gComp "T2" = some "active" ∨ resolvedStatus gComp "T2" = none)) :=
  ⟨((activeFilters_active_or_unknown gBase "P1" "C").1
      (resultOf (getProjectStatus gBase "P1") emptyProjectStatus) (by rfl)).1
      ⟨"T1", "task", []⟩,
   ((activeFilters_active_or_unknown gComp "P1" "C").2
      (resultOf (getComponentContext gComp "C") emptyComponentContext) (by rfl)).2
      ⟨"T2", "task", []⟩⟩

/-- A task is bucketed as completed exactly when its resolved status is
`complete` (a missing status buckets as `inactive`). -/
theorem bucket_complete_iff (g : Graph) (n : String) :
    (bucketStatus g n == "complete") = true ↔ resolvedStatus g n = some "complete" := by
  unfold bucketStatus
  cases h : resolvedStatus g n <;> simp

/-- A task is bucketed as in progress exactly when its resolved status is
`active`. -/
theorem bucket_active_iff (g : Graph) (n : String) :
    (!(bucketStatus g n == "complete") && (bucketStatus g n == "active")) = true ↔
      resolvedStatus g n = some "active" := by
  unfold bucketStatus
  cases h : resolvedStatus g n with
  | none => simp
  | some s =>
    simp only [Option.getD_some, Bool.and_eq_true, Bool.not_eq_true', beq_iff_eq,
      beq_eq_false_iff_ne, Option.some.injEq]
    constructor
    · exact fun hx => hx.2
    · intro hx; subst hx; exact ⟨by decide, rfl⟩

/-- A task is bucketed as not started exactly when its resolved status is
neither `complete` nor `active` (including absent). -/
theorem bucket_neither_iff (g : Graph) (n : String) :
    (!(bucketStatus g n == "complete") && !(bucketStatus g n == "active")) = true ↔
      (resolvedStatus g n ≠ some "complete" ∧ resolvedStatus g n ≠ some "active") := by
  unfold bucketStatus
  cases h : resolvedStatus g n <;> simp

/-- A list splits by a first and a second predicate into three buckets whose
lengths sum to its own. -/
theorem length_filter_partition {α : Type} (p q : α → Bool) (l : List α) :
    (l.filter p).length + (l.filter (fun a => !p a && q a)).length
      + (l.filter (fun a => !p a && !q a)).length = l.length := by
  induction l with
  | nil => rfl
  | cons a t ih => by_cases hp : p a <;> by_cases hq : q a <;> simp [hp, hq] <;> omega

/-- Inversion of a successful getMilestoneProgress call. -/
theorem getMilestoneProgress_ok_inv (g : Graph) (m : String) (r0 : MilestoneProgress)
    (h : getMilestoneProgress g m = .ok r0) :
    r0.totalTasks = (milestoneTasks g m).length ∧
    r0.completed = (milestoneTasks g m).filter (fun t => bucketStatus g t.name == "complete") ∧
    r0.inProgress = (milestoneTasks g m).filter (fun t =>
      !(bucketStatus g t.name == "complete") && (bucketStatus g t.name == "active")) ∧
    r0.notStarted = (milestoneTasks g m).filter (fun t =>
      !(bucketStatus g t.name == "complete") && !(bucketStatus g t.name == "active")) ∧
    r0.completedCount = r0.completed.length ∧
    r0.inProgressCount = r0.inProgress.length ∧
    r0.notStartedCount = r0.notStarted.length ∧
    r0.percentage = (if (milestoneTasks g m).length > 0 then
      jsRoundPct r0.completedCount (milestoneTasks g m).length else 0) ∧
    r0.complete = ((milestoneTasks g m).length > 0 &&
      (milestoneTasks g m).all (fun t => resolvedStatus g t.name == some "complete")) := by
  cases hfind : g.entities.find? (fun e => e.name == m && e.entityType == "milestone") with
  | none => rw [getMilestoneProgress, hfind] at h; exact absurd h (by simp)
  | some milestone =>
    rw [getMilestoneProgress, hfind] at h
    simp only [Except.ok.injEq] at h
    subst h
    exact ⟨rfl, rfl, rfl, rfl, rfl, rfl, rfl, rfl, rfl⟩

/-- C5: getMilestoneProgress buckets the related tasks by resolved status
(complete / active / anything else including absent), the bucket counts
partition the task count, the percentage is the rounding of
100·completed/total (zero when there are no tasks), and the milestone is
complete exactly when it has at least one task and every task resolves to
`complete`. -/
theorem getMilestoneProgress_spec (g : Graph) (m : String) (r0 : MilestoneProgress)
    (h : getMilestoneProgress g m = .ok r0) :
    r0.totalTasks = (milestoneTasks g m).length ∧
    (∀ t, t ∈ r0.completed ↔ t ∈ milestoneTasks g m ∧
      resolvedStatus g t.name = some "complete") ∧
    (∀ t, t ∈ r0.inProgress ↔ t ∈ milestoneTasks g m ∧
      resolvedStatus g t.name = some "active") ∧
    (∀ t, t ∈ r0.notStarted ↔ t ∈ milestoneTasks g m ∧
      resolvedStatus g t.name ≠ some "complete" ∧ resolvedStatus g t.name ≠ some "active") ∧
    r0.completedCount + r0.inProgressCount + r0.notStartedCount = r0.totalTasks ∧
    (r0.totalTasks = 0 → r0.percentage = 0) ∧
    (0 < r0.totalTasks → r0.percentage = jsRoundPct r0.completedCount r0.totalTasks) ∧
    (r0.complete = true ↔ milestoneTasks g m ≠ [] ∧
      ∀ t ∈ milestoneTasks g m, resolvedStatus g t.name = some "complete") := by
  obtain ⟨htot, hc, hip, hns, hcc, hic, hnc, hpct, hcomp⟩ :=
    getMilestoneProgress_ok_inv g m r0 h
  refine ⟨htot, ?_, ?_, ?_, ?_, ?_, ?_, ?_⟩
  · intro t
    rw [hc, List.mem_filter, bucket_complete_iff]
  · intro t
    rw [hip, List.mem_filter, bucket_active_iff]
  · intro t
    rw [hns, List.mem_filter, bucket_neither_iff]
  · rw [hcc, hic, hnc, hc, hip, hns, htot]
    exact length_filter_partition _ _ _
  · intro h0
    rw [htot] at h0
    rw [hpct, h0]
    simp
  · intro h0
    rw [htot] at h0
    rw [hpct, htot, if_pos h0]
  · rw [hcomp]
    simp [List.length_pos, List.all_eq_true]

/-- C5 witness: the characterization instantiated on the three-task
milestone of the claim, whose computed result shows percentage 33 and an
incomplete milestone. -/
theorem getMilestoneProgress_spec_witness :
    (resultOf (getMilestoneProgress gMilestone "M1") emptyMilestoneProgress).percentage = 33 ∧
    (resultOf (getMilestoneProgress gMilestone "M1") emptyMilestoneProgress).complete = false ∧
    ((resultOf (getMilestoneProgress gMilestone "M1") emptyMilestoneProgress).totalTasks
        = (milestoneTasks gMilestone "M1").length ∧
      (∀ t, t ∈ (resultOf (getMilestoneProgress gMilestone "M1") emptyMilestoneProgress).completed
        ↔ t ∈ milestoneTasks gMilestone "M1" ∧
          resolvedStatus gMilestone t.name = some "complete") ∧
      (∀ t, t ∈ (resultOf (getMilestoneProgress gMilestone "M1") emptyMilestoneProgress).inProgress
        ↔ t ∈ milestoneTasks gMilestone "M1" ∧
          resolvedStatus gMilestone t.name = some "active") ∧
      (∀ t, t ∈ (resultOf (getMilestoneProgress gMilestone "M1") emptyMilestoneProgress).notStarted
        ↔ t ∈ milestoneTasks gMilestone "M1" ∧
          resolvedStatus gMilestone t.name ≠ some "complete" ∧
          resolvedStatus gMilestone t.name ≠ some "active") ∧
      (resultOf (getMilestoneProgress gMilestone "M1") emptyMilestoneProgress).completedCount
          + (resultOf (getMilestoneProgress gMilestone "M1") emptyMilestoneProgress).inProgressCount
          + (resultOf (getMilestoneProgress gMilestone "M1") emptyMilestoneProgress).notStartedCount
        = (resultOf (getMilestoneProgress gMilestone "M1") emptyMilestoneProgress).totalTasks ∧
      ((resultOf (getMilestoneProgress gMilestone "M1") emptyMilestoneProgress).totalTasks = 0 →
        (resultOf (getMilestoneProgress gMilestone "M1") emptyMilestoneProgress).percentage = 0) ∧
      (0 < (resultOf (getMilestoneProgress gMilestone "M1") emptyMilestoneProgress).totalTasks →
        (resultOf (getMilestoneProgress gMilestone "M1") emptyMilestoneProgress).percentage
          = jsRoundPct
              (resultOf (getMilestoneProgress gMilestone "M1") emptyMilestoneProgress).completedCount
              (resultOf (getMilestoneProgress gMilestone "M1") emptyMilestoneProgress).totalTasks) ∧
      ((resultOf (getMilestoneProgress gMilestone "M1") emptyMilestoneProgress).complete = true ↔
        milestoneTasks gMilestone "M1" ≠ [] ∧
        ∀ t ∈ milestoneTasks gMilestone "M1",
          resolvedStatus gMilestone t.name = some "complete")) :=
  ⟨by decide, by decide,
   getMilestoneProgress_spec gMilestone "M1"
     (resultOf (getMilestoneProgress gMilestone "M1") emptyMilestoneProgress) (by rfl)⟩

/-- C9 counterexample: with six decisions discovered in order d1..d6, the
reported recentDecisions are the FIRST five discovered — the most recently
discovered decision d6 is the one dropped, so the cap does not keep the five
most recently discovered. -/
theorem recentDecisions_first_five_cex :
    projectDecisions gSixDecisions "P"
      = [⟨"d1", "decision", []⟩, ⟨"d2", "decision", []⟩, ⟨"d3", "decision", []⟩,
         ⟨"d4", "decision", []⟩, ⟨"d5", "decision", []⟩, ⟨"d6", "decision", []⟩] ∧
    (getProjectStatus gSixDecisions "P").map (fun r => r.recentDecisions)
      = .ok [⟨"d1", "decision", []⟩, ⟨"d2", "decision", []⟩, ⟨"d3", "decision", []⟩,
             ⟨"d4", "decision", []⟩, ⟨"d5", "decision", []⟩] ∧
    (⟨"d6", "decision", []⟩ : Entity)
      ∉ (resultOf (getProjectStatus gSixDecisions "P") emptyProjectStatus).recentDecisions := by
  refine ⟨by decide, by rfl, by decide⟩

/-- C9 amended: recentDecisions consists of the decision-typed entities
connected to the project by a relation in either direction, capped at the
first five in discovery order (the earliest discovered, not the most
recently discovered). -/
theorem recentDecisions_prefix_of_discovery (g : Graph) (p : String) (r0 : ProjectStatus)
    (h : getProjectStatus g p = .ok r0) :
    r0.recentDecisions = (projectDecisions g p).take 5 ∧
    List.IsPrefix r0.recentDecisions (projectDecisions g p) ∧
    r0.recentDecisions.length = min 5 (projectDecisions g p).length ∧
    ∀ d ∈ r0.recentDecisions, d.entityType = "decision" ∧
      ∃ rel ∈ g.relations,
        (rel.from = d.name ∧ rel.to = p) ∨ (rel.to = d.name ∧ rel.from = p) := by
  obtain ⟨-, -, -, -, hdec⟩ := getProjectStatus_ok_inv g p r0 h
  refine ⟨hdec, ?_, ?_, ?_⟩
  · rw [hdec]; exact List.take_prefix 5 _
  · rw [hdec]; exact List.length_take 5 _
  · intro d hd
    rw [hdec] at hd
    have hd2 : d ∈ projectDecisions g p := List.take_subset 5 _ hd
    have hd3 := (List.mem_filter.mp hd2).2
    simp only [Bool.and_eq_true, beq_iff_eq] at hd3
    obtain ⟨htype, hany⟩ := hd3
    obtain ⟨rel, hrel, hcond⟩ := List.any_eq_true.mp hany
    refine ⟨htype, rel, hrel, ?_⟩
    simp only [Bool.or_eq_true, Bool.and_eq_true, beq_iff_eq] at hcond
    exact hcond

/-- C9 amended witness: the characterization instantiated on the six-decision
graph. -/
theorem recentDecisions_prefix_of_discovery_witness :
    (resultOf (getProjectStatus gSixDecisions "P") emptyProjectStatus).recentDecisions
      = (projectDecisions gSixDecisions "P").take 5 ∧
    List.IsPrefix
      (resultOf (getProjectStatus gSixDecisions "P") emptyProjectStatus).recentDecisions
      (projectDecisions gSixDecisions "P") ∧
    (resultOf (getProjectStatus gSixDecisions "P") emptyProjectStatus).recentDecisions.length
      = min 5 (projectDecisions gSixDecisions "P").length ∧
    ∀ d ∈ (resultOf (getProjectStatus gSixDecisions "P") emptyProjectStatus).recentDecisions,
      d.entityType = "decision" ∧
      ∃ rel ∈ gSixDecisions.relations,
        (rel.from = d.name ∧ rel.to = "P") ∨ (rel.to = d.name ∧ rel.from = "P") :=
  recentDecisions_prefix_of_discovery gSixDecisions "P"
    (resultOf (getProjectStatus gSixDecisions "P") emptyProjectStatus) (by rfl)

/-- Inserting into a descending-sorted list permutes consing. -/
theorem insertDesc_perm (x : Entity × Int) (l : List (Entity × Int)) :
    List.Perm (insertDesc x l) (x :: l) := by
  induction l with
  | nil => exact List.Perm.refl _
  | cons y ys ih =>
    unfold insertDesc
    by_cases h : x.2 ≤ y.2
    · simp only [if_pos h]
      exact (ih.cons y).trans (List.Perm.swap x y ys)
    · simp only [if_neg h]
      exact List.Perm.refl _

/-- Inserting into a descending-sorted list keeps it descending-sorted. -/
theorem insertDesc_sorted (x : Entity × Int) (l : List (Entity × Int))
    (h : l.Pairwise (fun a b => b.2 ≤ a.2)) :
    (insertDesc x l).Pairwise (fun a b => b.2 ≤ a.2) := by
  induction l with
  | nil => simp [insertDesc]
  | cons y ys ih =>
    rcases List.pairwise_cons.mp h with ⟨hy, hys⟩
    unfold insertDesc
    by_cases hc : x.2 ≤ y.2
    · simp only [if_pos hc]
      refine List.pairwise_cons.mpr ⟨?_, ih hys⟩
      intro z hz
      have hz2 : z ∈ x :: ys := (insertDesc_perm x ys).mem_iff.mp hz
      rcases List.mem_cons.mp hz2 with rfl | hz3
      · exact hc
      · exact hy z hz3
    · simp only [if_neg hc]
      refine List.pairwise_cons.mpr ⟨?_, h⟩
      intro z hz
      have hxy : y.2 ≤ x.2 := le_of_not_le hc
      rcases List.mem_cons.mp hz with rfl | hz3
      · exact hxy
      · exact le_trans (hy z hz3) hxy

/-- The insertion fold keeps the accumulator descending-sorted. -/
theorem foldl_insertDesc_sorted (l : List (Entity × Int)) :
    ∀ acc, acc.Pairwise (fun a b => b.2 ≤ a.2) →
      (l.foldl (fun a x => insertDesc x a) acc).Pairwise (fun a b => b.2 ≤ a.2) := by
  induction l with
  | nil => exact fun acc h => h
  | cons x xs ih => exact fun acc h => ih _ (insertDesc_sorted x acc h)

/-- The insertion fold permutes the concatenation of input and accumulator. -/
theorem foldl_insertDesc_perm (l : List (Entity × Int)) :
    ∀ acc, List.Perm (l.foldl (fun a x => insertDesc x a) acc) (l ++ acc) := by
  induction l with
  | nil => intro acc; simp
  | cons x xs ih =>
    intro acc
    have h1 := ih (insertDesc x acc)
    have h2 : List.Perm (xs ++ insertDesc x acc) (xs ++ x :: acc) :=
      List.Perm.append_left xs (insertDesc_perm x acc)
    exact (h1.trans h2).trans List.perm_middle

/-- The sort of getDecisionHistory is descending in the key. -/
theorem sortByDateDesc_sorted (l : List (Entity × Int)) :
    (sortByDateDesc l).Pairwise (fun a b => b.2 ≤ a.2) :=
  foldl_insertDesc_sorted l [] (List.Pairwise.nil)

/-- The sort of getDecisionHistory permutes its input. -/
theorem sortByDateDesc_perm (l : List (Entity × Int)) :
    List.Perm (sortByDateDesc l) l := by
  have h := foldl_insertDesc_perm l []
  simpa [sortByDateDesc] using h

/-- C8 counterexample: a decision dated 1960 (before the epoch) sorts AFTER
the decision with no `Date:` observation, so a decision lacking the
observation is not assigned the oldest possible date and does not sort after
every dated decision. -/
theorem decisionHistory_no_date_not_last_cex :
    getDecisionHistory gDecDates "P"
      = .ok (⟨"P", "project", []⟩,
        [⟨"DN", "decision", ["no date recorded"]⟩,
         ⟨"D1960", "decision", ["Date: 1960-01-01"]⟩]) ∧
    dateObsOf ⟨"DN", "decision", ["no date recorded"]⟩ = none ∧
    (dateObsOf ⟨"D1960", "decision", ["Date: 1960-01-01"]⟩).isSome = true ∧
    assignedDate ⟨"D1960", "decision", ["Date: 1960-01-01"]⟩ < 0 ∧
    assignedDate ⟨"DN", "decision", ["no date recorded"]⟩ = 0 := by
  refine ⟨by rfl, by rfl, by rfl, by decide, by rfl⟩

/-- C8 amended: getDecisionHistory returns the collected decisions ordered
by descending assigned date, where a decision lacking a `Date:` observation
is assigned the Unix epoch (time zero) — not the oldest possible date — so
it sorts after decisions dated after 1970 but before decisions dated before
1970. -/
theorem decisionHistory_sorted_desc_epoch (g : Graph) (p : String) (pr : Entity)
    (ds : List Entity) (h : getDecisionHistory g p = .ok (pr, ds)) :
    ds.Pairwise (fun a b => assignedDate b ≤ assignedDate a) ∧
    List.Perm ds (collectDecisions g p) ∧
    (∀ d ∈ ds, dateObsOf d = none → assignedDate d = 0) := by
  cases hfind : g.entities.find? (fun e => e.name == p && e.entityType == "project") with
  | none => rw [getDecisionHistory, hfind] at h; exact absurd h (by simp)
  | some project =>
    rw [getDecisionHistory, hfind] at h
    simp only [Except.ok.injEq, Prod.mk.injEq] at h
    obtain ⟨-, hds⟩ := h
    subst hds
    set pairs := (collectDecisions g p).map (fun d => (d, assignedDate d)) with hpairs
    have hperm := sortByDateDesc_perm pairs
    have hkey : ∀ x ∈ sortByDateDesc pairs, x.2 = assignedDate x.1 := by
      intro x hx
      have hx2 : x ∈ pairs := hperm.mem_iff.mp hx
      obtain ⟨d, hd, hdx⟩ := List.mem_map.mp hx2
      rw [← hdx]
    refine ⟨?_, ?_, ?_⟩
    · have hs2 : (sortByDateDesc pairs).Pairwise
          (fun a b => assignedDate b.1 ≤ assignedDate a.1) :=
        (sortByDateDesc_sorted pairs).imp_of_mem
          (fun ha hb hr => by rw [← hkey _ ha, ← hkey _ hb]; exact hr)
      exact List.pairwise_map.mpr hs2
    · have h1 : List.Perm ((sortByDateDesc pairs).map (fun q => q.1))
          (pairs.map (fun q => q.1)) := hperm.map _
      have h2 : pairs.map (fun q => q.1) = collectDecisions g p := by
        rw [hpairs, List.map_map]
        exact List.map_id _
      rw [h2] at h1
      exact h1
    · intro d _ hnone
      unfold assignedDate
      rw [hnone]

/-- C8 amended witness: the ordering characterization instantiated on the
concrete graph with a pre-epoch date and an undated decision. -/
theorem decisionHistory_sorted_desc_epoch_witness :
    ([(⟨"DN", "decision", ["no date recorded"]⟩ : Entity),
      ⟨"D1960", "decision", ["Date: 1960-01-01"]⟩].Pairwise
        (fun a b => assignedDate b ≤ assignedDate a)) ∧
    List.Perm [(⟨"DN", "decision", ["no date recorded"]⟩ : Entity),
      ⟨"D1960", "decision", ["Date: 1960-01-01"]⟩] (collectDecisions gDecDates "P") ∧
    (∀ d ∈ [(⟨"DN", "decision", ["no date recorded"]⟩ : Entity),
      ⟨"D1960", "decision", ["Date: 1960-01-01"]⟩],
        dateObsOf d = none → assignedDate d = 0) :=
  decisionHistory_sorted_desc_epoch gDecDates "P" ⟨"P", "project", []⟩
    [⟨"DN", "decision", ["no date recorded"]⟩, ⟨"D1960", "decision", ["Date: 1960-01-01"]⟩]
    (by rfl)

/-- C6 counterexample: with two summary records accumulated in order, the
assembly reads the FIRST one (`find` returns the first match), not the most
recent one, so the assembled data differs from a most-recent-by-name
synthesis. -/
theorem assemble_first_not_most_recent_cex :
    (assembleEndSessionArgs twoSummaries).summary = "first" ∧
    (specAssembleMostRecent twoSummaries).summary = "second" ∧
    assembleEndSessionArgs twoSummaries ≠ specAssembleMostRecent twoSummaries := by
  exact ⟨by rfl, by rfl, by decide⟩

/-- C6 amended: whenever the assembly stage is processed, its stage data is
recomputed from the EARLIEST-recorded (first-match) stage record of each
name among summary, achievements, taskUpdates, newTasks and projectStatus
accumulated so far — selection is first-by-stage-name, not positional and
not most-recent — with each field defaulting to an empty value (duration to
`unknown`) when no record of that stage name exists. -/
theorem assemble_earliest_by_name :
    (∀ n a d nsn prev, processStage "assembly" n a d nsn prev
      = .ok { stage := "assembly", stageNumber := n,
              analysis := "Final assembly of endsession arguments",
              stageData := .assembled (assembleEndSessionArgs prev),
              completed := true }) ∧
    (∀ pre r post, r.stage = "summary" → (∀ t ∈ pre, stageOf t ≠ some "summary") →
      (assembleEndSessionArgs (pre ++ SessionItem.analysisStage r :: post)).summary
          = jsOrStr r.stageData.summaryField "" ∧
      (assembleEndSessionArgs (pre ++ SessionItem.analysisStage r :: post)).duration
          = jsOrStr r.stageData.durationField "unknown" ∧
      (assembleEndSessionArgs (pre ++ SessionItem.analysisStage r :: post)).focus
          = jsOrStr r.stageData.focusField "") ∧
    (∀ pre r post, r.stage = "achievements" → (∀ t ∈ pre, stageOf t ≠ some "achievements") →
      (assembleEndSessionArgs (pre ++ SessionItem.analysisStage r :: post)).achievements
          = (r.stageData.achievementsField).getD []) ∧
    (∀ pre r post, r.stage = "taskUpdates" → (∀ t ∈ pre, stageOf t ≠ some "taskUpdates") →
      (assembleEndSessionArgs (pre ++ SessionItem.analysisStage r :: post)).taskUpdates
          = (r.stageData.taskUpdatesField).getD []) ∧
    (∀ pre r post, r.stage = "newTasks" → (∀ t ∈ pre, stageOf t ≠ some "newTasks") →
      (assembleEndSessionArgs (pre ++ SessionItem.analysisStage r :: post)).newTasks
          = (r.stageData.newTasksField).getD []) ∧
    (∀ pre r post, r.stage = "projectStatus" → (∀ t ∈ pre, stageOf t ≠ some "projectStatus") →
      (assembleEndSessionArgs (pre ++ SessionItem.analysisStage r :: post)).projectName
          = jsOrStr r.stageData.projectNameField "" ∧
      (assembleEndSessionArgs (pre ++ SessionItem.analysisStage r :: post)).projectStatus
          = jsOrStr r.stageData.projectStatusField "" ∧
      (assembleEndSessionArgs (pre ++ SessionItem.analysisStage r :: post)).projectObservation
          = jsOrStr r.stageData.projectObservationField "") ∧
    (∀ stages, (∀ t ∈ stages, stageOf t ≠ some "summary") →
      (assembleEndSessionArgs stages).summary = "" ∧
      (assembleEndSessionArgs stages).duration = "unknown" ∧
      (assembleEndSessionArgs stages).focus = "") ∧
    (∀ stages, (∀ t ∈ stages, stageOf t ≠ some "achievements") →
      (assembleEndSessionArgs stages).achievements = []) ∧
    (∀ stages, (∀ t ∈ stages, stageOf t ≠ some "taskUpdates") →
      (assembleEndSessionArgs stages).taskUpdates = []) ∧
    (∀ stages, (∀ t ∈ stages, stageOf t ≠ some "newTasks") →
      (assembleEndSessionArgs stages).newTasks = []) ∧
    (∀ stages, (∀ t ∈ stages, stageOf t ≠ some "projectStatus") →
      (assembleEndSessionArgs stages).projectName = "" ∧
      (assembleEndSessionArgs stages).projectStatus = "" ∧
      (assembleEndSessionArgs stages).projectObservation = "") := by
  have hfound : ∀ (name : String) pre (r : StageRecord) post, r.stage = name →
      (∀ t ∈ pre, stageOf t ≠ some name) →
      (pre ++ SessionItem.analysisStage r :: post).find? (fun s => stageOf s == some name)
        = some (.analysisStage r) := by
    intro name pre r post hr hpre
    refine find?_first_match _ pre _ post ?_ ?_
    · simp [stageOf, hr]
    · intro t ht
      exact beq_eq_false_iff_ne.mpr (hpre t ht)
  have hnone : ∀ (name : String) (stages : List SessionItem),
      (∀ t ∈ stages, stageOf t ≠ some name) →
      stages.find? (fun s => stageOf s == some name) = none := by
    intro name stages hs
    apply List.find?_eq_none.mpr
    intro t ht
    rw [beq_eq_false_iff_ne.mpr (hs t ht)]
    simp
  refine ⟨fun n a d nsn prev => rfl, ?_, ?_, ?_, ?_, ?_, ?_, ?_, ?_, ?_, ?_⟩
  · intro pre r post hr hpre
    have h1 := hfound "summary" pre r post hr hpre
    refine ⟨?_, ?_, ?_⟩ <;> simp [assembleEndSessionArgs, h1, stageDataOf]
  · intro pre r post hr hpre
    have h1 := hfound "achievements" pre r post hr hpre
    simp [assembleEndSessionArgs, h1, stageDataOf]
  · intro pre r post hr hpre
    have h1 := hfound "taskUpdates" pre r post hr hpre
    simp [assembleEndSessionArgs, h1, stageDataOf]
  · intro pre r post hr hpre
    have h1 := hfound "newTasks" pre r post hr hpre
    simp [assembleEndSessionArgs, h1, stageDataOf]
  · intro pre r post hr hpre
    have h1 := hfound "projectStatus" pre r post hr hpre
    refine ⟨?_, ?_, ?_⟩ <;> simp [assembleEndSessionArgs, h1, stageDataOf]
  · intro stages hs
    have h1 := hnone "summary" stages hs
    refine ⟨?_, ?_, ?_⟩ <;> simp [assembleEndSessionArgs, h1, jsOrStr]
  · intro stages hs
    have h1 := hnone "achievements" stages hs
    simp [assembleEndSessionArgs, h1]
  · intro stages hs
    have h1 := hnone "taskUpdates" stages hs
    simp [assembleEndSessionArgs, h1]
  · intro stages hs
    have h1 := hnone "newTasks" stages hs
    simp [assembleEndSessionArgs, h1]
  · intro stages hs
    have h1 := hnone "projectStatus" stages hs
    refine ⟨?_, ?_, ?_⟩ <;> simp [assembleEndSessionArgs, h1, jsOrStr]

/-- C6 amended witness: the assembly recomputation, the first-match rule and
a default instantiated on concrete stage lists. -/
theorem assemble_earliest_by_name_witness :
    processStage "assembly" 3 none none false twoSummaries
      = .ok { stage := "assembly", stageNumber := 3,
              analysis := "Final assembly of endsession arguments",
              stageData := .assembled (assembleEndSessionArgs twoSummaries),
              completed := true } ∧
    (assembleEndSessionArgs ([] ++ SessionItem.analysisStage (summaryRecord "only") :: [])).summary
      = jsOrStr (summaryRecord "only").stageData.summaryField "" ∧
    (assembleEndSessionArgs ([] : List SessionItem)).duration = "unknown" :=
  ⟨assemble_earliest_by_name.1 3 none none false twoSummaries,
   (assemble_earliest_by_name.2.1 [] (summaryRecord "only") [] (by rfl)
      (fun t ht => absurd ht (List.not_mem_nil t))).1,
   (assemble_earliest_by_name.2.2.2.2.2.2.1 [] (fun t ht => absurd ht (List.not_mem_nil t))).2.1⟩

/-- Reduction of the session-state update on a revision call with an index
present: the two truthiness branches spelled out. -/
theorem updateSessionState_rev (state : List SessionItem) (idx : Nat) (sr : StageRecord) :
    updateSessionState state true (some idx) sr
      = if (idx == 0) = true then state ++ [.analysisStage sr]
        else (state.filter (fun i => !isAnalysisStage i) ++
          (if idx ≤ (state.filter isAnalysisStage).length
           then (state.filter isAnalysisStage).set (idx - 1) (.analysisStage sr)
           else state.filter isAnalysisStage ++ [.analysisStage sr])) := rfl

/-- C7: a revision call carrying a one-based index within the count of the
analysis-stage records accumulated so far replaces the record at that
position (counting only analysis-stage records, whatever their stage
names), and a revision whose index exceeds that count appends the new
record instead of replacing anything. -/
theorem revision_replaces_or_appends (state : List SessionItem) (idx : Nat)
    (sr : StageRecord) (h1 : 1 ≤ idx) :
    (idx ≤ (state.filter isAnalysisStage).length →
      updateSessionState state true (some idx) sr
        = state.filter (fun i => !isAnalysisStage i)
            ++ (state.filter isAnalysisStage).set (idx - 1) (.analysisStage sr) ∧
      (updateSessionState state true (some idx) sr).filter isAnalysisStage
        = (state.filter isAnalysisStage).set (idx - 1) (.analysisStage sr)) ∧
    ((state.filter isAnalysisStage).length < idx →
      updateSessionState state true (some idx) sr
        = state.filter (fun i => !isAnalysisStage i)
            ++ state.filter isAnalysisStage ++ [.analysisStage sr] ∧
      (updateSessionState state true (some idx) sr).filter isAnalysisStage
        = state.filter isAnalysisStage ++ [.analysisStage sr]) := by
  have hidx0 : ¬((idx == 0) = true) := by simp; omega
  constructor
  · intro hle
    have heq : updateSessionState state true (some idx) sr
        = state.filter (fun i => !isAnalysisStage i)
            ++ (state.filter isAnalysisStage).set (idx - 1) (.analysisStage sr) := by
      rw [updateSessionState_rev, if_neg hidx0, if_pos hle]
    refine ⟨heq, ?_⟩
    rw [heq, List.filter_append, filter_not_filter_self, List.nil_append]
    apply List.filter_eq_self.mpr
    intro x hx
    rcases List.mem_or_eq_of_mem_set hx with hx2 | rfl
    · exact (List.mem_filter.mp hx2).2
    · rfl
  · intro hgt
    have heq : updateSessionState state true (some idx) sr
        = state.filter (fun i => !isAnalysisStage i)
            ++ state.filter isAnalysisStage ++ [.analysisStage sr] := by
      rw [updateSessionState_rev, if_neg hidx0, if_neg (by omega), List.append_assoc]
    refine ⟨by rw [heq, List.append_assoc], ?_⟩
    rw [heq, List.filter_append, List.filter_append, filter_not_filter_self,
      List.nil_append, filter_filter_self]
    simp [isAnalysisStage]

/-- C7 witness: an in-range revision replacing the first of two records, and
an out-of-range revision appending a third. -/
theorem revision_replaces_or_appends_witness :
    (updateSessionState twoSummaries true (some 1) (summaryRecord "revised")
        = twoSummaries.filter (fun i => !isAnalysisStage i)
            ++ (twoSummaries.filter isAnalysisStage).set 0
                 (.analysisStage (summaryRecord "revised")) ∧
      (updateSessionState twoSummaries true (some 1) (summaryRecord "revised")).filter
          isAnalysisStage
        = (twoSummaries.filter isAnalysisStage).set 0
            (.analysisStage (summaryRecord "revised"))) ∧
    (updateSessionState twoSummaries true (some 7) (summaryRecord "appended")
        = twoSummaries.filter (fun i => !isAnalysisStage i)
            ++ twoSummaries.filter isAnalysisStage
            ++ [.analysisStage (summaryRecord "appended")] ∧
      (updateSessionState twoSummaries true (some 7) (summaryRecord "appended")).filter
          isAnalysisStage
        = twoSummaries.filter isAnalysisStage
            ++ [.analysisStage (summaryRecord "appended")]) :=
  ⟨(revision_replaces_or_appends twoSummaries 1 (summaryRecord "revised")
      (by decide)).1 (by decide),
   (revision_replaces_or_appends twoSummaries 7 (summaryRecord "appended")
      (by decide)).2 (by decide)⟩

end Developer
